import Mathlib

/-!
Verification development for the FedEx report-automation program (`src/app.py`).

The program's core is `fill_loc_test_data`, a pandas-based reconciliation pass
over a single positional dataset, plus a formula builder that emits an Excel
trailer-classification expression.  We embed the dataset as a list of rows of
cells, where a cell is either null (pandas NaN), a string, or a number.
Pandas floats are idealised as rationals; `astype(str)` of a number is
rendered with Rat's canonical notation (a deterministic stand-in for Python's
decimal rendering — it is applied uniformly on both sides of every key
comparison, which is all the reconciliation logic observes).
-/

/-- A cell of the dataframe: pandas NaN, a string, or a numeric value. -/
inductive Cell where
  | null : Cell
  | str : String → Cell
  | num : Rat → Cell
deriving DecidableEq, Repr

/-- Pandas `notna`: true for every cell except null/NaN. -/
def Cell.isNull : Cell → Bool
  | .null => true
  | _ => false

/-- Python `str.strip`: drop leading and trailing whitespace. -/
def pyStrip (s : String) : String :=
  ⟨List.reverse (List.dropWhile Char.isWhitespace
      (List.reverse (List.dropWhile Char.isWhitespace s.data)))⟩

/-- Python `str.upper` (ASCII, as Lean's `Char.toUpper`). -/
def pyUpper (s : String) : String :=
  ⟨s.data.map Char.toUpper⟩

/-- Python `str.lower` (ASCII); used to state case-insensitivity. -/
def pyLower (s : String) : String :=
  ⟨s.data.map Char.toLower⟩

/-- Pandas `astype(str)`: NaN renders as "nan", strings are unchanged, numbers render
canonically (see module comment). -/
def cellToStr : Cell → String
  | .null => "nan"
  | .str s => s
  | .num q => toString q

/-- Key normalisation used on both sides of the merge:
`astype(str).str.strip().str.upper()` (lines 71-72 and 91-92 of app.py). -/
def normKey (c : Cell) : String :=
  pyUpper (pyStrip (cellToStr c))

/-- Digit list to natural number. -/
def digitsToNat (l : List Char) : Nat :=
  l.foldl (fun a c => a * 10 + (c.toNat - 48)) 0

/-- Model of `pd.to_numeric(errors="coerce")` on a string: optional sign, digits,
optional decimal point; anything else coerces to absent.  (Exponent forms and
other exotica are abstracted away: they only widen the set of accepted
strings, and every claim treats "numeric or absent" uniformly.) -/
def parseRat (s : String) : Option Rat :=
  let cs := (pyStrip s).data
  let signed := match cs with
    | '-' :: r => (true, r)
    | '+' :: r => (false, r)
    | _ => (false, cs)
  let neg := signed.1
  let body := signed.2
  let intPart := body.takeWhile Char.isDigit
  let rest := body.dropWhile Char.isDigit
  match rest with
  | [] =>
      if intPart.isEmpty then none
      else
        let n : Rat := (digitsToNat intPart : Int)
        some (if neg then -n else n)
  | '.' :: frac =>
      if frac.all Char.isDigit && !(intPart.isEmpty && frac.isEmpty) then
        let n : Rat := (digitsToNat intPart : Int) +
          ((digitsToNat frac : Int) : Rat) / ((10 : Rat) ^ frac.length)
        some (if neg then -n else n)
      else none
  | _ => none

/-- Model of `pd.to_numeric(errors="coerce")` on a cell (line 84 of app.py). -/
def toNumeric : Cell → Option Rat
  | .null => none
  | .num q => some q
  | .str s => parseRat s

/-- A positional dataset: a column count and rows of cells. -/
structure Df where
  ncols : Nat
  rows : List (List Cell)
deriving DecidableEq, Repr

/-- Well-formedness: every row carries exactly `ncols` cells. -/
def Df.WF (df : Df) : Prop :=
  ∀ r ∈ df.rows, r.length = df.ncols

/-- Positional cell access within a row (a well-formed row is long enough, so
the default is never observed on in-range indices). -/
def getCell (r : List Cell) (j : Nat) : Cell :=
  r.getD j Cell.null

/-- The eligibility filter applied identically to the base rows (lines 75-80)
and the sub-table rows (lines 95-100): both cells non-null and non-blank after
`astype(str).str.strip()`. -/
def keyEligible (c l : Cell) : Bool :=
  !c.isNull && !l.isNull && (pyStrip (cellToStr c) != "") && (pyStrip (cellToStr l) != "")

/-- One record of `base_map` (line 86): the two normalised keys and the three
coerced numeric fields, named TRUE / FALSE / Grand Total in the sheet. -/
structure BaseEntry where
  ckey : String
  lkey : String
  trueCount : Option Rat
  falseCount : Option Rat
  grandTotal : Option Rat
deriving DecidableEq, Repr

/-- Rows of the dataset that pass the base eligibility filter on columns 0-1. -/
def baseRows (df : Df) : List (List Cell) :=
  df.rows.filter (fun r => keyEligible (getCell r 0) (getCell r 1))

/-- Build one base record from a (filtered) row: keys from columns 0-1,
numerics from columns 2-4. -/
def mkBaseEntry (r : List Cell) : BaseEntry :=
  { ckey := normKey (getCell r 0)
    lkey := normKey (getCell r 1)
    trueCount := toNumeric (getCell r 2)
    falseCount := toNumeric (getCell r 3)
    grandTotal := toNumeric (getCell r 4) }

/-- Pandas `drop_duplicates` keeps the first occurrence of each duplicated full row. -/
def dropDupAux [DecidableEq α] : List α → List α → List α
  | _, [] => []
  | seen, a :: l =>
      if a ∈ seen then dropDupAux seen l else a :: dropDupAux (a :: seen) l

/-- pandas `DataFrame.drop_duplicates` (first occurrence wins). -/
def dropDup [DecidableEq α] (l : List α) : List α :=
  dropDupAux [] l

/-- The base map of line 86: eligible base rows, projected to the five
selected columns, with fully identical rows collapsed. -/
def base_map (df : Df) : List BaseEntry :=
  dropDup ((baseRows df).map mkBaseEntry)

/-- Eligibility of a sub-table row (`valid_mask`, lines 95-100): key cells at
columns 8-9 non-null and non-blank after trimming. -/
def rowValid (r : List Cell) : Bool :=
  keyEligible (getCell r 8) (getCell r 9)

/-- Normalised composite key of a sub-table row (lines 91-92). -/
def subKey (r : List Cell) : String × String :=
  (normKey (getCell r 8), normKey (getCell r 9))

/-- The base-map records matching one normalised composite key: this is the
merge condition `on=["Carrier Name_key", "LOC_key"]` of lines 103-107. -/
def matchesFor (bm : List BaseEntry) (ck lk : String) : List BaseEntry :=
  bm.filter (fun e => e.ckey = ck && e.lkey = lk)

/-- One row of the merged frame: the three value fields brought over from the
base map (absent on no match). -/
structure MergedRow where
  trueCount : Option Rat
  falseCount : Option Rat
  grandTotal : Option Rat
deriving DecidableEq, Repr

/-- Left-merge (`how="left"`) semantics for one left row: every matching base record in
base-map order, or a single all-absent record when none matches. -/
def mergeRow (bm : List BaseEntry) (ck lk : String) : List MergedRow :=
  match matchesFor bm ck lk with
  | [] => [⟨none, none, none⟩]
  | ms => ms.map (fun e => ⟨e.trueCount, e.falseCount, e.grandTotal⟩)

/-- The merged frame of lines 103-107: left merge of the valid sub-table
keys, in row order, against the base map. -/
def merged (df : Df) : List MergedRow :=
  (df.rows.filter rowValid).flatMap
    (fun r => mergeRow (base_map df) (subKey r).1 (subKey r).2)

/-- Tracked% for one merged row (lines 123-124): the float division
`TRUE / Grand Total` followed by replacing NA and the two infinities with NA.
Absent operands give NaN, a zero denominator gives an infinity or NaN; all of
these end up absent. -/
def trackedPct (m : MergedRow) : Option Rat :=
  match m.trueCount, m.grandTotal with
  | some t, some g => if g = 0 then none else some (t / g)
  | _, _ => none

/-- An absent value writes NaN into the frame; a present one writes the
number. -/
def optCell : Option Rat → Cell
  | none => Cell.null
  | some q => Cell.num q

/-- Write one merged record into columns 10-13 of a row (lines 118-126). -/
def fillRow (r : List Cell) (m : MergedRow) : List Cell :=
  ((((r.set 10 (optCell m.trueCount)).set 11 (optCell m.falseCount)).set 12
      (optCell m.grandTotal)).set 13 (optCell (trackedPct m)))

/-- Walk the rows in order, consuming one merged record per valid row
(`df.loc[target_idx, ...] = merged[...].values` assigns the merged values to
the valid rows positionally, in index order). -/
def applyMerged : List (List Cell) → List MergedRow → List (List Cell)
  | [], _ => []
  | r :: rs, ms =>
      if rowValid r then
        match ms with
        | m :: ms2 => fillRow r m :: applyMerged rs ms2
        | [] => r :: applyMerged rs []
      else r :: applyMerged rs ms

/-- Error message of line 65. -/
def colMsg : String :=
  "LOC test data sheet does not have enough columns (needs up to column N)."

/-- The ValueError pandas raises when the merged value vector is longer than
the target index (lines 118-126). -/
def lenMsg : String :=
  "Must have equal len keys and value when setting with an iterable"

/-- The function `fill_loc_test_data` (lines 47-128): fatal when fewer than 14 columns;
builds the base map from columns 0-4 and the valid mask from columns 8-9,
left-merges, and writes the merged values (and Tracked%) into columns 10-13
of the valid rows.  When the merge yields more rows than there are valid
sub-table rows (duplicate differing base keys that are matched), the
positional write-back raises. -/
def fill_loc_test_data (df : Df) : Except String Df :=
  if df.ncols < 14 then .error colMsg
  else if (df.rows.filter rowValid).length ≠ (merged df).length then .error lenMsg
  else .ok { ncols := df.ncols, rows := applyMerged df.rows (merged df) }

/-- The Excel formula text emitted for the Trailer column (lines 166-176). -/
def trailer_formula : String :=
  "=IF(OR(LEFT([@[Active Equipment ID]],6)=\"861861\"," ++
  "LEFT([@[Active Equipment ID]],5)=\"86355\")," ++
  "\"FedEx Trailer\"," ++
  "IF(OR(UPPER(TRIM([@[Active Equipment ID]]))=\"UNKNOWN\"," ++
  "UPPER(TRIM([@[Active Equipment ID]]))=\"UNKOWN\")," ++
  "IF(OR(LEFT([@[Historical Equipment ID]],6)=\"861861\"," ++
  "LEFT([@[Historical Equipment ID]],5)=\"86355\")," ++
  "\"FedEx Trailer\",\"Subco Trailer\")," ++
  "\"Subco Trailer\"))"

/-- Excel `LEFT(s, n)`: the first n characters. -/
def excelLEFT (s : String) (n : Nat) : String :=
  s.take n

/-- Collapse runs of spaces to a single space; with the flag set, an initial
run is removed entirely. -/
def squeezeSpaces : Bool → List Char → List Char
  | _, [] => []
  | lastSp, c :: rest =>
      if c = ' ' then
        if lastSp then squeezeSpaces true rest
        else ' ' :: squeezeSpaces true rest
      else c :: squeezeSpaces false rest

/-- Excel `TRIM`: remove leading/trailing spaces and collapse internal runs
of spaces to a single space. -/
def excelTRIM (s : String) : String :=
  ⟨((squeezeSpaces true s.data).reverse.dropWhile (fun c => c = ' ')).reverse⟩

/-- Excel `UPPER` (ASCII, as Lean's `Char.toUpper`). -/
def excelUPPER (s : String) : String :=
  ⟨s.data.map Char.toUpper⟩

/-- The two-prefix test `LEFT(id,6)="861861" OR LEFT(id,5)="86355"` used by
`trailer_formula`. -/
def fedexIdTest (s : String) : Bool :=
  excelLEFT s 6 = "861861" || excelLEFT s 5 = "86355"

/-- The unknown-spelling test `UPPER(TRIM(id))` equals "UNKNOWN" or the
misspelling "UNKOWN". -/
def unknownTest (s : String) : Bool :=
  excelUPPER (excelTRIM s) = "UNKNOWN" || excelUPPER (excelTRIM s) = "UNKOWN"

/-- Per-row evaluation of `trailer_formula` under Excel semantics of
IF/OR/LEFT/UPPER/TRIM, as a function of the Active and Historical Equipment
ID cell texts. -/
def trailerClass (active hist : String) : String :=
  if fedexIdTest active then "FedEx Trailer"
  else if unknownTest active then
    if fedexIdTest hist then "FedEx Trailer" else "Subco Trailer"
  else "Subco Trailer"

/-- The LOC-test branch of `build_workbook` (lines 219-225): when a LOC
test-data frame is supplied, the workbook contains the filled sheet and any
reconciliation failure aborts the whole build with no artifact. -/
def build_workbook_loc : Option Df → Except String (Option Df)
  | none => .ok none
  | some d => (fill_loc_test_data d).map some

/-! ## Concrete datasets used by witnesses and counterexamples -/

/-- Input dataset for the C1 witness: one row serving both as base row
(columns 0-4) and as an eligible sub-table row (columns 8-9). -/
def exC1row : List Cell :=
  [.str "A", .str "L", .num 3, .num 1, .num 4, .null, .null, .null,
   .str " a ", .str "l", .str "x", .str "x", .str "x", .str "x"]

/-- One-row dataset for the C1 witness. -/
def exC1df : Df := ⟨14, [exC1row]⟩

/-- Output of `fill_loc_test_data` on `exC1df`. -/
def exC1out : Df :=
  ⟨14, [[.str "A", .str "L", .num 3, .num 1, .num 4, .null, .null, .null,
         .str " a ", .str "l", .num 3, .num 1, .num 4, .num (3 / 4)]]⟩

/-- Dataset for C3: its single row is ineligible as a base row (columns 0-1
null) but eligible as a sub-table row, with pre-existing content in columns
10-13 and a key that matches no base entry. -/
def exC3row : List Cell :=
  [.null, .null, .null, .null, .null, .null, .null, .null,
   .str "B", .str "M", .str "keepme", .str "p", .str "q", .str "s"]

/-- One-row dataset for C3. -/
def exC3df : Df := ⟨14, [exC3row]⟩

/-- Output of `fill_loc_test_data` on `exC3df`: the pre-existing content of
columns 10-13 has been overwritten with nulls. -/
def exC3out : Df :=
  ⟨14, [[.null, .null, .null, .null, .null, .null, .null, .null,
         .str "B", .str "M", .null, .null, .null, .null]]⟩

/-- Dataset for the C4 witness: its single row is ineligible as a sub-table
row (column 8 is null) and carries placeholder content in columns 10-13. -/
def exC4row : List Cell :=
  [.str "A", .str "L", .num 1, .num 2, .num 3, .null, .null, .null,
   .null, .str "L", .str "keep1", .str "keep2", .str "keep3", .str "keep4"]

/-- One-row dataset for C4. -/
def exC4df : Df := ⟨14, [exC4row]⟩

/-- Dataset for the C5 witness: one matched eligible row and one all-null row. -/
def exC5df : Df :=
  ⟨14, [[.str "C", .str "N", .num 5, .num 5, .num 10, .null, .null, .null,
         .str "c", .str "n", .null, .null, .null, .null],
        [.null, .null, .null, .null, .null, .null, .null, .null,
         .null, .null, .null, .null, .null, .null]]⟩

/-- Output of `fill_loc_test_data` on `exC5df`. -/
def exC5out : Df :=
  ⟨14, [[.str "C", .str "N", .num 5, .num 5, .num 10, .null, .null, .null,
         .str "c", .str "n", .num 5, .num 5, .num 10, .num (5 / 10)],
        [.null, .null, .null, .null, .null, .null, .null, .null,
         .null, .null, .null, .null, .null, .null]]⟩

/-- Dataset for the C10 witness: an eligible matched row with data in
columns 0-9. -/
def exC10row : List Cell :=
  [.str "D", .str "P", .num 1, .num 1, .num 2, .str "z", .null, .null,
   .str "d", .str "p", .null, .null, .null, .null]

/-- One-row dataset for C10. -/
def exC10df : Df := ⟨14, [exC10row]⟩

/-- Output of `fill_loc_test_data` on `exC10df`. -/
def exC10out : Df :=
  ⟨14, [[.str "D", .str "P", .num 1, .num 1, .num 2, .str "z", .null, .null,
         .str "d", .str "p", .num 1, .num 1, .num 2, .num (1 / 2)]]⟩

/-- Dataset for the C2 counterexample: two eligible base rows whose keys
normalise identically ("A" and "a") but whose numeric triples differ; the
sub-table keys are null so the fill itself is not exercised. -/
def exC2df : Df :=
  ⟨14, [[.str "A", .str "L", .num 1, .num 2, .num 3, .null, .null, .null,
         .null, .null, .null, .null, .null, .null],
        [.str "a", .str "L", .num 4, .num 5, .num 9, .null, .null, .null,
         .null, .null, .null, .null, .null, .null]]⟩

/-- Dataset for C9: two base rows with the same normalised key and differing
triples, plus one eligible sub-table row matching that key. -/
def exC9df : Df :=
  ⟨14, [[.str "A", .str "L", .num 1, .num 2, .num 3, .null, .null, .null,
         .str "A", .str "L", .null, .null, .null, .null],
        [.str "A", .str "L", .num 4, .num 5, .num 9, .null, .null, .null,
         .null, .null, .null, .null, .null, .null]]⟩

/-- Dataset for the C6 counterexample: 14 columns, but duplicate differing
base keys matched by an eligible sub-table row, so the merge-length error
path fires. -/
def exC6df : Df :=
  ⟨14, [[.str "B", .str "M", .num 1, .num 0, .num 1, .null, .null, .null,
         .str "B", .str "M", .null, .null, .null, .null],
        [.str "B", .str "M", .num 2, .num 0, .num 2, .null, .null, .null,
         .null, .null, .null, .null, .null, .null]]⟩

/-- Ten-column dataset for the C6 witness. -/
def exC6small : Df := ⟨10, []⟩

/-! ## Helper lemmas -/

lemma mem_dropDupAux [DecidableEq α] (l : List α) :
    ∀ (seen : List α) (a : α), a ∈ dropDupAux seen l ↔ a ∈ l ∧ a ∉ seen := by
  induction l with
  | nil => intro seen a; simp [dropDupAux]
  | cons x xs ih =>
      intro seen a
      simp only [dropDupAux]
      split
      · rename_i hx
        rw [ih]
        constructor
        · rintro ⟨h1, h2⟩; exact ⟨List.mem_cons_of_mem _ h1, h2⟩
        · rintro ⟨h1, h2⟩
          rcases List.mem_cons.mp h1 with rfl | h1
          · exact absurd hx h2
          · exact ⟨h1, h2⟩
      · rename_i hx
        rw [List.mem_cons, ih]
        constructor
        · rintro (rfl | ⟨h1, h2⟩)
          · exact ⟨List.mem_cons_self _ _, hx⟩
          · refine ⟨List.mem_cons_of_mem _ h1, fun hs => h2 ?_⟩
            exact List.mem_cons_of_mem _ hs
        · rintro ⟨h1, h2⟩
          by_cases hax : a = x
          · exact Or.inl hax
          · rcases List.mem_cons.mp h1 with rfl | h1
            · exact absurd rfl hax
            · refine Or.inr ⟨h1, fun hs => ?_⟩
              rcases List.mem_cons.mp hs with rfl | hs
              · exact hax rfl
              · exact h2 hs

lemma mem_dropDup [DecidableEq α] (l : List α) (a : α) :
    a ∈ dropDup l ↔ a ∈ l := by
  unfold dropDup
  rw [mem_dropDupAux]
  simp

lemma nodup_dropDupAux [DecidableEq α] (l : List α) :
    ∀ seen : List α, (dropDupAux seen l).Nodup := by
  induction l with
  | nil => intro seen; simp [dropDupAux]
  | cons x xs ih =>
      intro seen
      simp only [dropDupAux]
      split
      · exact ih seen
      · refine List.nodup_cons.mpr ⟨fun hmem => ?_, ih (x :: seen)⟩
        exact ((mem_dropDupAux xs (x :: seen) x).mp hmem).2 (List.mem_cons_self _ _)

lemma nodup_dropDup [DecidableEq α] (l : List α) : (dropDup l).Nodup :=
  nodup_dropDupAux l []

lemma length_le_length_flatMap {α β : Type} (g : α → List β) (l : List α)
    (hg : ∀ x, 1 ≤ (g x).length) :
    l.length ≤ (l.flatMap g).length := by
  induction l with
  | nil => simp
  | cons x xs ih =>
      simp only [List.flatMap_cons, List.length_append, List.length_cons]
      have := hg x
      omega

lemma length_flatMap_eq_iff {α β : Type} (g : α → List β) (l : List α)
    (hg : ∀ x, 1 ≤ (g x).length) :
    (l.flatMap g).length = l.length ↔ ∀ x ∈ l, (g x).length = 1 := by
  induction l with
  | nil => simp
  | cons x xs ih =>
      simp only [List.flatMap_cons, List.length_append, List.length_cons, List.mem_cons]
      have h1 := hg x
      have h2 := length_le_length_flatMap g xs hg
      constructor
      · intro h
        have hx : (g x).length = 1 := by omega
        have hxs : (xs.flatMap g).length = xs.length := by omega
        intro y hy
        rcases hy with rfl | hy
        · exact hx
        · exact (ih.mp hxs) y hy
      · intro h
        have hx := h x (Or.inl rfl)
        have hxs := ih.mpr (fun y hy => h y (Or.inr hy))
        omega

lemma mergeRow_length_ge (bm : List BaseEntry) (ck lk : String) :
    1 ≤ (mergeRow bm ck lk).length := by
  unfold mergeRow
  split
  · simp
  · rename_i hne
    rw [List.length_map]
    cases h : matchesFor bm ck lk with
    | nil => exact absurd h hne
    | cons x xs => simp

lemma mergeRow_of_nomatch (bm : List BaseEntry) (ck lk : String)
    (h : matchesFor bm ck lk = []) :
    mergeRow bm ck lk = [⟨none, none, none⟩] := by
  unfold mergeRow
  rw [h]

lemma mergeRow_eq_map (bm : List BaseEntry) (ck lk : String) (x : BaseEntry)
    (xs : List BaseEntry) (h : matchesFor bm ck lk = x :: xs) :
    mergeRow bm ck lk = (x :: xs).map
      (fun e => (⟨e.trueCount, e.falseCount, e.grandTotal⟩ : MergedRow)) := by
  unfold mergeRow
  rw [h]

lemma mergeRow_singleton (bm : List BaseEntry) (ck lk : String) (e : BaseEntry)
    (he : e ∈ matchesFor bm ck lk)
    (hlen : (mergeRow bm ck lk).length = 1) :
    mergeRow bm ck lk = [⟨e.trueCount, e.falseCount, e.grandTotal⟩] := by
  cases h : matchesFor bm ck lk with
  | nil => rw [h] at he; cases he
  | cons x xs =>
      rw [h] at he
      rw [mergeRow_eq_map bm ck lk x xs h] at hlen ⊢
      simp only [List.length_map, List.length_cons] at hlen
      have hxs : xs = [] := List.length_eq_zero.mp (by omega)
      subst hxs
      simp only [List.mem_singleton] at he
      subst he
      simp

lemma mergeRow_length_one_iff (bm : List BaseEntry) (ck lk : String) :
    (mergeRow bm ck lk).length = 1 ↔ (matchesFor bm ck lk).length ≤ 1 := by
  cases h : matchesFor bm ck lk with
  | nil => rw [mergeRow_of_nomatch bm ck lk h]; simp
  | cons x xs =>
      rw [mergeRow_eq_map bm ck lk x xs h]
      simp [List.length_map]

lemma applyMerged_flatMap (g : List Cell → List MergedRow)
    (hg : ∀ r, 1 ≤ (g r).length) :
    ∀ rows : List (List Cell),
      ((rows.filter rowValid).flatMap g).length = (rows.filter rowValid).length →
      applyMerged rows ((rows.filter rowValid).flatMap g)
        = rows.map (fun r =>
            if rowValid r then fillRow r ((g r).headD ⟨none, none, none⟩) else r) := by
  intro rows
  induction rows with
  | nil => intro _; simp [applyMerged]
  | cons r rs ih =>
      intro hlen
      by_cases hv : rowValid r = true
      · rw [List.filter_cons_of_pos hv] at hlen ⊢
        rw [List.flatMap_cons] at hlen ⊢
        simp only [List.length_append, List.length_cons] at hlen
        have h1 := hg r
        have h2 := length_le_length_flatMap g (rs.filter rowValid) hg
        have hr1 : (g r).length = 1 := by omega
        have hrest : ((rs.filter rowValid).flatMap g).length
            = (rs.filter rowValid).length := by omega
        obtain ⟨m, hm⟩ := List.length_eq_one.mp hr1
        rw [hm]
        simp only [List.singleton_append, List.map_cons, hv, if_true]
        simp only [applyMerged, hv, if_true]
        rw [ih hrest, hm]
        simp
      · rw [List.filter_cons_of_neg hv] at hlen ⊢
        simp only [List.map_cons, hv, if_false]
        simp only [applyMerged, hv, if_false]
        rw [ih hlen]
        simp

lemma fill_ok_iff (df df' : Df) :
    fill_loc_test_data df = .ok df' ↔
      (14 ≤ df.ncols ∧
       (df.rows.filter rowValid).length = (merged df).length ∧
       df' = ⟨df.ncols, applyMerged df.rows (merged df)⟩) := by
  unfold fill_loc_test_data
  split
  · rename_i h14
    constructor
    · intro h; cases h
    · rintro ⟨h, _, _⟩; omega
  · rename_i h14
    split
    · rename_i hlen
      constructor
      · intro h; cases h
      · rintro ⟨_, h, _⟩; exact absurd h hlen
    · rename_i hlen
      constructor
      · intro h
        refine ⟨by omega, not_not.mp hlen, ?_⟩
        cases h
        rfl
      · rintro ⟨_, _, rfl⟩
        rfl

lemma merged_def (df : Df) :
    merged df = (df.rows.filter rowValid).flatMap
      (fun r => mergeRow (base_map df) (subKey r).1 (subKey r).2) := rfl

lemma fill_ok_rows (df df' : Df) (hok : fill_loc_test_data df = Except.ok df') :
    df'.ncols = df.ncols ∧
    (∀ r ∈ df.rows, rowValid r = true →
        (mergeRow (base_map df) (subKey r).1 (subKey r).2).length = 1) ∧
    df'.rows = df.rows.map (fun r =>
      if rowValid r then
        fillRow r ((mergeRow (base_map df) (subKey r).1 (subKey r).2).headD
          ⟨none, none, none⟩)
      else r) := by
  obtain ⟨h14, hlen, hdf⟩ := (fill_ok_iff df df').mp hok
  have hg : ∀ r, 1 ≤ (mergeRow (base_map df) (subKey r).1 (subKey r).2).length :=
    fun r => mergeRow_length_ge _ _ _
  rw [merged_def] at hlen
  have hone := (length_flatMap_eq_iff _ _ hg).mp hlen.symm
  have happ := applyMerged_flatMap _ hg df.rows hlen.symm
  refine ⟨by rw [hdf], ?_, ?_⟩
  · intro r hr hv
    exact hone r (List.mem_filter.mpr ⟨hr, hv⟩)
  · rw [hdf]
    simpa [merged_def] using happ

lemma getCell_fillRow (r : List Cell) (m : MergedRow) (h : 13 < r.length) :
    getCell (fillRow r m) 10 = optCell m.trueCount ∧
    getCell (fillRow r m) 11 = optCell m.falseCount ∧
    getCell (fillRow r m) 12 = optCell m.grandTotal ∧
    getCell (fillRow r m) 13 = optCell (trackedPct m) := by
  unfold fillRow getCell
  refine ⟨?_, ?_, ?_, ?_⟩ <;>
  · simp only [List.getD_eq_getElem?_getD, List.getElem?_set, List.length_set]
    norm_num
    rw [if_pos (by omega)]
    simp

lemma getCell_fillRow_frame (r : List Cell) (m : MergedRow) (j : Nat)
    (h : j < 10 ∨ 13 < j) :
    getCell (fillRow r m) j = getCell r j := by
  unfold fillRow getCell
  rw [List.getD_eq_getElem?_getD, List.getD_eq_getElem?_getD]
  rw [List.getElem?_set_ne (by omega), List.getElem?_set_ne (by omega),
    List.getElem?_set_ne (by omega), List.getElem?_set_ne (by omega)]

lemma length_fillRow (r : List Cell) (m : MergedRow) :
    (fillRow r m).length = r.length := by
  unfold fillRow
  simp

/-! ## Claim theorems -/

/-- C1: whenever `fill_loc_test_data` returns a filled dataset for a
well-formed input with at least 14 columns, every eligible sub-table row
(key cells at columns 8-9 non-null and non-blank after trimming) whose
normalised (Carrier Name, LOC) key has an entry in the base map built from
columns 0-4 receives exactly that entry's TRUE (Tracked), FALSE (Not-Tracked)
and Grand Total values in columns 10-12, and column 13 receives the ratio
TRUE / Grand Total, recorded as absent (never an error, never zero, never
infinity) whenever Grand Total is zero or absent or TRUE is absent. -/
theorem C1_matched_rows_filled (df df' : Df) (i : Nat) (r : List Cell)
    (e : BaseEntry)
    (hwf : Df.WF df)
    (hok : fill_loc_test_data df = Except.ok df')
    (hr : df.rows[i]? = some r)
    (hv : rowValid r = true)
    (he : e ∈ base_map df)
    (hck : e.ckey = (subKey r).1)
    (hlk : e.lkey = (subKey r).2) :
    ∃ r', df'.rows[i]? = some r' ∧
      getCell r' 10 = optCell e.trueCount ∧
      getCell r' 11 = optCell e.falseCount ∧
      getCell r' 12 = optCell e.grandTotal ∧
      (∀ t g, e.trueCount = some t → e.grandTotal = some g → g ≠ 0 →
        getCell r' 13 = Cell.num (t / g)) ∧
      ((e.trueCount = none ∨ e.grandTotal = none ∨ e.grandTotal = some 0) →
        getCell r' 13 = Cell.null) := by
  obtain ⟨hnc, hone, hrows⟩ := fill_ok_rows df df' hok
  have hrmem : r ∈ df.rows := List.getElem?_mem hr
  have hrlen : 13 < r.length := by
    have h1 := hwf r hrmem
    have h14 := ((fill_ok_iff df df').mp hok).1
    omega
  have hlen1 := hone r hrmem hv
  have hemem : e ∈ matchesFor (base_map df) (subKey r).1 (subKey r).2 := by
    unfold matchesFor
    refine List.mem_filter.mpr ⟨he, ?_⟩
    simp [hck, hlk]
  have hsing := mergeRow_singleton _ _ _ e hemem hlen1
  refine ⟨fillRow r ⟨e.trueCount, e.falseCount, e.grandTotal⟩, ?_, ?_⟩
  · rw [hrows, List.getElem?_map, hr]
    simp [hv, hsing]
  · obtain ⟨g10, g11, g12, g13⟩ :=
      getCell_fillRow r ⟨e.trueCount, e.falseCount, e.grandTotal⟩ hrlen
    refine ⟨g10, g11, g12, ?_, ?_⟩
    · intro t g ht hg hgz
      rw [g13]
      simp [trackedPct, ht, hg, hgz, optCell]
    · intro hdeg
      rw [g13]
      have hnone : trackedPct ⟨e.trueCount, e.falseCount, e.grandTotal⟩ = none := by
        rcases hdeg with h1 | h1 | h1
        · simp [trackedPct, h1]
        · cases htc : e.trueCount <;> simp [trackedPct, h1, htc]
        · cases htc : e.trueCount <;> simp [trackedPct, h1, htc]
      rw [hnone]
      rfl

/-- Witness for C1: on the concrete dataset `exC1df`, whose single row is an
eligible sub-table row with key (" a ", "l") matching the base entry
("A", "L", 3, 1, 4), the fill assigns columns 10-13 the values 3, 1, 4 and
the ratio 3/4. -/
theorem C1_matched_rows_filled_witness :
    fill_loc_test_data exC1df = Except.ok exC1out ∧
    ∃ r', exC1out.rows[0]? = some r' ∧
      getCell r' 10 = Cell.num 3 ∧
      getCell r' 11 = Cell.num 1 ∧
      getCell r' 12 = Cell.num 4 ∧
      getCell r' 13 = Cell.num (3 / 4) := by
  have hok : fill_loc_test_data exC1df = Except.ok exC1out := by rfl
  refine ⟨hok, ?_⟩
  obtain ⟨r', h0, h10, h11, h12, h13, _⟩ :=
    C1_matched_rows_filled exC1df exC1out 0 exC1row
      ⟨"A", "L", some 3, some 1, some 4⟩
      (by intro r hr; simp [exC1df] at hr; subst hr; rfl)
      hok (by rfl) (by decide) (by decide) (by decide) (by decide)
  exact ⟨r', h0, h10, h11, h12, h13 3 4 rfl rfl (by norm_num)⟩

/-- C3 counterexample: the claim says unmatched eligible rows keep their
target columns as-is, but on `exC3df` the eligible unmatched row's
pre-existing content "keepme" in column 10 is overwritten with null (the
left merge brings over NaN for unmatched keys and the write-back stores it). -/
theorem C3_counterexample :
    getCell exC3row 10 = Cell.str "keepme" ∧
    fill_loc_test_data exC3df = Except.ok exC3out ∧
    (∀ r' ∈ exC3out.rows, getCell r' 10 = Cell.null ∧ getCell r' 11 = Cell.null ∧
      getCell r' 12 = Cell.null ∧ getCell r' 13 = Cell.null) := by
  refine ⟨rfl, by rfl, by decide⟩

/-- C3 amended: for every eligible sub-table row whose normalised key is NOT
present in the base map, `fill_loc_test_data` overwrites that row's target
columns 10-13 with absent (null) values, discarding whatever content those
cells held before reconciliation. -/
theorem C3_unmatched_rows_blanked (df df' : Df) (i : Nat) (r : List Cell)
    (hwf : Df.WF df)
    (hok : fill_loc_test_data df = Except.ok df')
    (hr : df.rows[i]? = some r)
    (hv : rowValid r = true)
    (hnm : matchesFor (base_map df) (subKey r).1 (subKey r).2 = []) :
    ∃ r', df'.rows[i]? = some r' ∧
      getCell r' 10 = Cell.null ∧ getCell r' 11 = Cell.null ∧
      getCell r' 12 = Cell.null ∧ getCell r' 13 = Cell.null := by
  obtain ⟨hnc, hone, hrows⟩ := fill_ok_rows df df' hok
  have hrmem : r ∈ df.rows := List.getElem?_mem hr
  have hrlen : 13 < r.length := by
    have h1 := hwf r hrmem
    have h14 := ((fill_ok_iff df df').mp hok).1
    omega
  have hmr := mergeRow_of_nomatch (base_map df) (subKey r).1 (subKey r).2 hnm
  refine ⟨fillRow r ⟨none, none, none⟩, ?_, ?_⟩
  · rw [hrows, List.getElem?_map, hr]
    simp [hv, hmr]
  · obtain ⟨g10, g11, g12, g13⟩ := getCell_fillRow r ⟨none, none, none⟩ hrlen
    exact ⟨by simpa [optCell] using g10, by simpa [optCell] using g11,
      by simpa [optCell] using g12, by simpa [trackedPct, optCell] using g13⟩

/-- Witness for the amended C3: on `exC3df` the eligible unmatched row ends
with nulls in all four target columns. -/
theorem C3_unmatched_rows_blanked_witness :
    fill_loc_test_data exC3df = Except.ok exC3out ∧
    ∃ r', exC3out.rows[0]? = some r' ∧
      getCell r' 10 = Cell.null ∧ getCell r' 13 = Cell.null := by
  have hok : fill_loc_test_data exC3df = Except.ok exC3out := by rfl
  obtain ⟨r', h0, h10, h11, h12, h13⟩ :=
    C3_unmatched_rows_blanked exC3df exC3out 0 exC3row
      (by intro r hr; simp [exC3df] at hr; subst hr; rfl)
      hok (by rfl) (by decide) (by decide)
  exact ⟨hok, r', h0, h10, h13⟩

/-- C4: every ineligible sub-table row (column 8 or column 9 null or blank
after trimming) passes through `fill_loc_test_data` completely unmodified:
the returned dataset holds the identical row, including columns 10-13. -/
theorem C4_ineligible_rows_unchanged (df df' : Df) (i : Nat) (r : List Cell)
    (hok : fill_loc_test_data df = Except.ok df')
    (hr : df.rows[i]? = some r)
    (hv : rowValid r = false) :
    df'.rows[i]? = some r := by
  obtain ⟨_, _, hrows⟩ := fill_ok_rows df df' hok
  rw [hrows, List.getElem?_map, hr]
  simp [hv]

/-- Witness for C4: `exC4df`'s single row is ineligible (column 8 null) and
survives the fill byte-identically, placeholders included. -/
theorem C4_ineligible_rows_unchanged_witness :
    fill_loc_test_data exC4df = Except.ok exC4df ∧
    exC4df.rows[0]? = some exC4row := by
  have hok : fill_loc_test_data exC4df = Except.ok exC4df := by rfl
  exact ⟨hok, C4_ineligible_rows_unchanged exC4df exC4df 0 exC4row hok
    (by rfl) (by decide)⟩

/-- C5: whenever `fill_loc_test_data` returns a dataset, that dataset has the
same column count and the same row count as the input, and its row list is
the input's row list mapped in place: the row at every index is a function of
the input row at that same index alone (the valid ones filled from their
merge record, the rest untouched), so reconciliation never adds, removes, or
reorders rows. -/
theorem C5_row_count_preserved (df df' : Df)
    (hok : fill_loc_test_data df = Except.ok df') :
    df'.ncols = df.ncols ∧ df'.rows.length = df.rows.length ∧
    df'.rows = df.rows.map (fun r =>
      if rowValid r then
        fillRow r ((mergeRow (base_map df) (subKey r).1 (subKey r).2).headD
          ⟨none, none, none⟩)
      else r) := by
  obtain ⟨hnc, _, hrows⟩ := fill_ok_rows df df' hok
  exact ⟨hnc, by rw [hrows, List.length_map], hrows⟩

/-- Witness for C5: the two-row dataset `exC5df` fills to a two-row dataset
whose second (ineligible) row still sits, unchanged, at index 1. -/
theorem C5_row_count_preserved_witness :
    fill_loc_test_data exC5df = Except.ok exC5out ∧
    exC5out.ncols = 14 ∧ exC5out.rows.length = 2 ∧
    exC5out.rows[1]? = exC5df.rows[1]? := by
  have hok : fill_loc_test_data exC5df = Except.ok exC5out := by rfl
  obtain ⟨h1, h2, h3⟩ := C5_row_count_preserved exC5df exC5out hok
  refine ⟨hok, by simpa using h1, by simpa using h2, ?_⟩
  rw [h3, List.getElem?_map]
  rfl

/-- C10: `fill_loc_test_data` is pure (the embedding transforms a copy; the
input value is untouched by construction), and in the returned dataset every
row has the same length as the corresponding input row with every cell
outside columns 10-13 — in particular all of columns 0-9 — equal to the
input's cell at the same position. -/
theorem C10_only_targets_change (df df' : Df) (i : Nat) (r : List Cell)
    (hok : fill_loc_test_data df = Except.ok df')
    (hr : df.rows[i]? = some r) :
    ∃ r', df'.rows[i]? = some r' ∧ r'.length = r.length ∧
      ∀ j, j < 10 ∨ 13 < j → getCell r' j = getCell r j := by
  obtain ⟨_, _, hrows⟩ := fill_ok_rows df df' hok
  by_cases hv : rowValid r = true
  · refine ⟨fillRow r ((mergeRow (base_map df) (subKey r).1 (subKey r).2).headD
      ⟨none, none, none⟩), ?_, length_fillRow _ _, fun j hj =>
        getCell_fillRow_frame _ _ j hj⟩
    rw [hrows, List.getElem?_map, hr]
    simp [hv]
  · refine ⟨r, ?_, rfl, fun _ _ => rfl⟩
    rw [hrows, List.getElem?_map, hr]
    simp [hv]

/-- Witness for C10: on `exC10df` the matched row keeps its length and its
cells outside columns 10-13. -/
theorem C10_only_targets_change_witness :
    fill_loc_test_data exC10df = Except.ok exC10out ∧
    ∃ r', exC10out.rows[0]? = some r' ∧ r'.length = 14 ∧
      getCell r' 0 = Cell.str "D" ∧ getCell r' 5 = Cell.str "z" := by
  have hok : fill_loc_test_data exC10df = Except.ok exC10out := by rfl
  obtain ⟨r', h0, hlen, hframe⟩ :=
    C10_only_targets_change exC10df exC10out 0 exC10row hok (by rfl)
  refine ⟨hok, r', h0, by simpa using hlen, ?_, ?_⟩
  · rw [hframe 0 (by omega)]; rfl
  · rw [hframe 5 (by omega)]; rfl

/-- C2 counterexample: the claim says each normalised key maps to exactly
one triple after deduplication, but on `exC2df` (keys "A"/"a" both normalise
to "A") the base map retains two records with the same normalised key and
different triples: `drop_duplicates` on line 86 collapses only fully
identical rows. -/
theorem C2_counterexample :
    (base_map exC2df).length = 2 ∧
    ∃ e1 ∈ base_map exC2df, ∃ e2 ∈ base_map exC2df,
      e1.ckey = e2.ckey ∧ e1.lkey = e2.lkey ∧ e1 ≠ e2 := by
  decide

/-- C2 amended: the deduplication of line 86 is per full record, not per
key: the base map is duplicate-free as a list of five-field records
(first occurrence kept), and holds exactly the records of the eligible base
rows; keys carrying differing value triples are all retained. -/
theorem C2_base_map_dedup_full_records (df : Df) :
    (base_map df).Nodup ∧
    ∀ e, e ∈ base_map df ↔ e ∈ (baseRows df).map mkBaseEntry :=
  ⟨nodup_dropDup _, fun e => mem_dropDup _ e⟩

/-- C9: on `exC9df`, two eligible base rows share the normalised key
("A", "L") with differing numeric triples — both survive the full-row
deduplication — and one eligible sub-table row matches that key, so the left
merge yields two rows for one target index and the positional write-back
raises instead of returning a filled dataset. -/
theorem C9_duplicate_keys_raise :
    (∃ e1 ∈ base_map exC9df, ∃ e2 ∈ base_map exC9df,
      e1.ckey = e2.ckey ∧ e1.lkey = e2.lkey ∧ e1 ≠ e2) ∧
    (exC9df.rows.filter rowValid).length = 1 ∧
    (merged exC9df).length = 2 ∧
    fill_loc_test_data exC9df = Except.error lenMsg := by
  refine ⟨by decide, by decide, by decide, by rfl⟩

/-- The write-back length check succeeds exactly when no valid sub-table row
matches two or more base-map records. -/
theorem length_eq_iff_unique_matches (df : Df) :
    (df.rows.filter rowValid).length = (merged df).length ↔
    ∀ r ∈ df.rows, rowValid r = true →
      (matchesFor (base_map df) (subKey r).1 (subKey r).2).length ≤ 1 := by
  rw [merged_def, eq_comm,
    length_flatMap_eq_iff _ _ (fun r => mergeRow_length_ge _ _ _)]
  constructor
  · intro h r hr hv
    exact (mergeRow_length_one_iff _ _ _).mp (h r (List.mem_filter.mpr ⟨hr, hv⟩))
  · intro h r hr
    obtain ⟨hmem, hv⟩ := List.mem_filter.mp hr
    exact (mergeRow_length_one_iff _ _ _).mpr (h r hmem hv)

/-- C6 counterexample: the claim says the only error path is the
fewer-than-14-columns check, but `exC6df` has 14 columns and still makes
`fill_loc_test_data` raise, on the merge-length mismatch caused by duplicate
differing base keys. -/
theorem C6_counterexample :
    14 ≤ exC6df.ncols ∧
    fill_loc_test_data exC6df = Except.error lenMsg ∧
    lenMsg ≠ colMsg := by
  refine ⟨by decide, by rfl, by decide⟩

/-- C6 amended: a dataset with fewer than 14 columns fails with the
column-count error and no workbook is produced; with at least 14 columns
that error is never raised; the only other error path is the merge-length
mismatch, which fires exactly when some eligible sub-table row matches two
or more base-map records; otherwise the fill returns a dataset.  Missing
keys, non-numeric fields and zero denominators never abort (they appear in
a returned dataset as absent values). -/
theorem C6_error_paths (df : Df) :
    (fill_loc_test_data df = Except.error colMsg ↔ df.ncols < 14) ∧
    (fill_loc_test_data df = Except.error lenMsg ↔
      (14 ≤ df.ncols ∧ ∃ r ∈ df.rows, rowValid r = true ∧
        2 ≤ (matchesFor (base_map df) (subKey r).1 (subKey r).2).length)) ∧
    ((∃ d, fill_loc_test_data df = Except.ok d) ↔
      (14 ≤ df.ncols ∧ ∀ r ∈ df.rows, rowValid r = true →
        (matchesFor (base_map df) (subKey r).1 (subKey r).2).length ≤ 1)) ∧
    (∀ e, fill_loc_test_data df = Except.error e → e = colMsg ∨ e = lenMsg) ∧
    (∀ e, fill_loc_test_data df = Except.error e →
      build_workbook_loc (some df) = Except.error e) := by
  have hmsg : colMsg ≠ lenMsg := by decide
  have hbw : ∀ e, fill_loc_test_data df = Except.error e →
      build_workbook_loc (some df) = Except.error e := by
    intro e he
    simp only [build_workbook_loc, he]
    rfl
  have hneg : (¬ ∀ r ∈ df.rows, rowValid r = true →
      (matchesFor (base_map df) (subKey r).1 (subKey r).2).length ≤ 1) ↔
      (∃ r ∈ df.rows, rowValid r = true ∧
        2 ≤ (matchesFor (base_map df) (subKey r).1 (subKey r).2).length) := by
    push_neg
    constructor
    · rintro ⟨r, hr, hv, hgt⟩
      exact ⟨r, hr, hv, by omega⟩
    · rintro ⟨r, hr, hv, hge⟩
      exact ⟨r, hr, hv, by omega⟩
  by_cases h14 : df.ncols < 14
  · have hfill : fill_loc_test_data df = Except.error colMsg := by
      unfold fill_loc_test_data
      rw [if_pos h14]
    rw [hfill]
    refine ⟨by simp [h14], ?_, ?_, ?_,
      fun e he => hbw e (by rw [hfill]; exact he)⟩
    · simp only [Except.error.injEq]
      constructor
      · intro h; exact absurd h hmsg
      · rintro ⟨h, _⟩; omega
    · constructor
      · rintro ⟨d, h⟩; cases h
      · rintro ⟨h, _⟩; omega
    · intro e he
      cases he
      exact Or.inl rfl
  · by_cases hlen : (df.rows.filter rowValid).length = (merged df).length
    · have hfill : fill_loc_test_data df =
          Except.ok ⟨df.ncols, applyMerged df.rows (merged df)⟩ := by
        unfold fill_loc_test_data
        rw [if_neg h14, if_neg (by simpa using hlen)]
      rw [hfill]
      refine ⟨?_, ?_, ?_, ?_,
        fun e he => hbw e (by rw [hfill]; exact he)⟩
      · constructor
        · intro h; cases h
        · intro h; omega
      · constructor
        · intro h; cases h
        · rintro ⟨_, hex⟩
          exact absurd ((length_eq_iff_unique_matches df).mp hlen) (hneg.mpr hex)
      · constructor
        · intro _
          exact ⟨by omega, (length_eq_iff_unique_matches df).mp hlen⟩
        · intro _
          exact ⟨_, rfl⟩
      · intro e he
        cases he
    · have hfill : fill_loc_test_data df = Except.error lenMsg := by
        unfold fill_loc_test_data
        rw [if_neg h14, if_pos (by simpa using hlen)]
      rw [hfill]
      refine ⟨?_, ?_, ?_, ?_,
        fun e he => hbw e (by rw [hfill]; exact he)⟩
      · simp only [Except.error.injEq]
        constructor
        · intro h; exact absurd h.symm hmsg
        · intro h; omega
      · simp only [Except.error.injEq, true_iff]
        refine ⟨by omega, ?_⟩
        exact hneg.mp (fun hall => hlen ((length_eq_iff_unique_matches df).mpr hall))
      · constructor
        · rintro ⟨d, h⟩; cases h
        · rintro ⟨_, hall⟩
          exact absurd ((length_eq_iff_unique_matches df).mpr hall) hlen
      · intro e he
        cases he
        exact Or.inr rfl

/-- Witness for C6: the ten-column dataset `exC6small` takes the
column-count error path and the workbook build aborts with the same error. -/
theorem C6_error_paths_witness :
    fill_loc_test_data exC6small = Except.error colMsg ∧
    build_workbook_loc (some exC6small) = Except.error colMsg := by
  have h := C6_error_paths exC6small
  have h1 : fill_loc_test_data exC6small = Except.error colMsg :=
    h.1.mpr (by decide)
  exact ⟨h1, h.2.2.2.2 colMsg h1⟩

/-- C7: the Trailer classification computed by `trailer_formula` is a total
function of (Active Equipment ID, Historical Equipment ID): every row gets
exactly one of "FedEx Trailer" / "Subco Trailer", decided in priority order —
first the two-prefix test on the Active ID; else, when the trimmed
upper-cased Active ID is "UNKNOWN" or the misspelling "UNKOWN", the same
two-prefix test on the Historical ID; else "Subco Trailer". -/
theorem C7_trailer_total_classification (a h : String) :
    (trailerClass a h = "FedEx Trailer" ∨ trailerClass a h = "Subco Trailer") ∧
    (fedexIdTest a = true → trailerClass a h = "FedEx Trailer") ∧
    (fedexIdTest a = false → unknownTest a = true →
      trailerClass a h =
        (if fedexIdTest h then "FedEx Trailer" else "Subco Trailer")) ∧
    (fedexIdTest a = false → unknownTest a = false →
      trailerClass a h = "Subco Trailer") := by
  unfold trailerClass
  by_cases hfa : fedexIdTest a <;> by_cases hua : unknownTest a <;>
    by_cases hfh : fedexIdTest h <;> simp [hfa, hua, hfh]

/-- Witness for C7, on the four examples of the specification: a "861861"
Active ID, an unknown Active ID with a "86355" Historical ID, a misspelled
unknown Active ID with an unmatched Historical ID, and a plain Active ID. -/
theorem C7_trailer_total_classification_witness :
    trailerClass "8618611234" "" = "FedEx Trailer" ∧
    trailerClass "UNKNOWN" "8635599" = "FedEx Trailer" ∧
    trailerClass "UNKOWN" "XYZ" = "Subco Trailer" ∧
    trailerClass "XYZ" "" = "Subco Trailer" := by
  refine ⟨?_, ?_, ?_, ?_⟩
  · exact (C7_trailer_total_classification "8618611234" "").2.1 (by decide)
  · have h := (C7_trailer_total_classification "UNKNOWN" "8635599").2.2.1
      (by decide) (by decide)
    rw [h]
    decide
  · have h := (C7_trailer_total_classification "UNKOWN" "XYZ").2.2.1
      (by decide) (by decide)
    rw [h]
    decide
  · exact (C7_trailer_total_classification "XYZ" "").2.2.2 (by decide) (by decide)

lemma char_lower_upper_aux (n : Nat) (h1 : 65 ≤ n) (h2 : n ≤ 90) :
    (Char.ofNat n).toLower.toUpper = (Char.ofNat n).toUpper ∧
    (Char.ofNat n).toLower.isWhitespace = (Char.ofNat n).isWhitespace := by
  interval_cases n <;> exact ⟨by decide, by decide⟩

lemma char_upper_upper_aux (n : Nat) (h1 : 97 ≤ n) (h2 : n ≤ 122) :
    (Char.ofNat n).toUpper.toUpper = (Char.ofNat n).toUpper ∧
    (Char.ofNat n).toUpper.isWhitespace = (Char.ofNat n).isWhitespace := by
  interval_cases n <;> exact ⟨by decide, by decide⟩

lemma toLower_eq_self (c : Char) (hc : ¬(65 ≤ c.toNat ∧ c.toNat ≤ 90)) :
    c.toLower = c := by
  simp only [Char.toLower]
  exact if_neg (fun hh => hc ⟨hh.1, hh.2⟩)

lemma toUpper_eq_self (c : Char) (hc : ¬(97 ≤ c.toNat ∧ c.toNat ≤ 122)) :
    c.toUpper = c := by
  simp only [Char.toUpper]
  exact if_neg (fun hh => hc ⟨hh.1, hh.2⟩)

lemma toUpper_toLower (c : Char) : c.toLower.toUpper = c.toUpper := by
  by_cases hc : 65 ≤ c.toNat ∧ c.toNat ≤ 90
  · have h := (char_lower_upper_aux c.toNat hc.1 hc.2).1
    rwa [Char.ofNat_toNat] at h
  · rw [toLower_eq_self c hc]

lemma isWhitespace_toLower (c : Char) :
    c.toLower.isWhitespace = c.isWhitespace := by
  by_cases hc : 65 ≤ c.toNat ∧ c.toNat ≤ 90
  · have h := (char_lower_upper_aux c.toNat hc.1 hc.2).2
    rwa [Char.ofNat_toNat] at h
  · rw [toLower_eq_self c hc]

lemma toUpper_toUpper (c : Char) : c.toUpper.toUpper = c.toUpper := by
  by_cases hc : 97 ≤ c.toNat ∧ c.toNat ≤ 122
  · have h := (char_upper_upper_aux c.toNat hc.1 hc.2).1
    rwa [Char.ofNat_toNat] at h
  · rw [toUpper_eq_self c hc, toUpper_eq_self c hc]

lemma isWhitespace_toUpper (c : Char) :
    c.toUpper.isWhitespace = c.isWhitespace := by
  by_cases hc : 97 ≤ c.toNat ∧ c.toNat ≤ 122
  · have h := (char_upper_upper_aux c.toNat hc.1 hc.2).2
    rwa [Char.ofNat_toNat] at h
  · rw [toUpper_eq_self c hc]

lemma strip_core (a l b : List Char)
    (ha : ∀ c ∈ a, c.isWhitespace = true) (hb : ∀ c ∈ b, c.isWhitespace = true) :
    ((a ++ l ++ b).dropWhile Char.isWhitespace).reverse.dropWhile Char.isWhitespace
      = (l.dropWhile Char.isWhitespace).reverse.dropWhile Char.isWhitespace := by
  rw [List.append_assoc, List.dropWhile_append_of_pos ha, List.dropWhile_append]
  by_cases hle : (l.dropWhile Char.isWhitespace).isEmpty
  · rw [if_pos hle]
    have hbe : b.dropWhile Char.isWhitespace = [] :=
      List.dropWhile_eq_nil_iff.mpr (fun c hc => hb c hc)
    have hlee : l.dropWhile Char.isWhitespace = [] := List.isEmpty_iff.mp hle
    rw [hbe, hlee]
  · rw [if_neg hle, List.reverse_append]
    rw [List.dropWhile_append_of_pos
      (fun c hc => hb c (List.mem_reverse.mp hc))]

lemma pyStrip_pad (s pre post : String)
    (hpre : ∀ c ∈ pre.data, c.isWhitespace = true)
    (hpost : ∀ c ∈ post.data, c.isWhitespace = true) :
    pyStrip (pre ++ s ++ post) = pyStrip s := by
  unfold pyStrip
  rw [String.data_append, String.data_append]
  exact congrArg (fun l => (⟨List.reverse l⟩ : String))
    (strip_core pre.data s.data post.data hpre hpost)

lemma dropWhile_ws_map_toLower (l : List Char) :
    (l.map Char.toLower).dropWhile Char.isWhitespace
      = (l.dropWhile Char.isWhitespace).map Char.toLower := by
  have hcomp : (Char.isWhitespace ∘ Char.toLower) = Char.isWhitespace :=
    funext isWhitespace_toLower
  rw [List.dropWhile_map, hcomp]

lemma dropWhile_ws_map_toUpper (l : List Char) :
    (l.map Char.toUpper).dropWhile Char.isWhitespace
      = (l.dropWhile Char.isWhitespace).map Char.toUpper := by
  have hcomp : (Char.isWhitespace ∘ Char.toUpper) = Char.isWhitespace :=
    funext isWhitespace_toUpper
  rw [List.dropWhile_map, hcomp]

lemma pyStrip_pyLower_comm (s : String) :
    pyStrip (pyLower s) = pyLower (pyStrip s) := by
  unfold pyStrip pyLower
  refine congrArg String.mk ?_
  show (((s.data.map Char.toLower).dropWhile
      Char.isWhitespace).reverse.dropWhile Char.isWhitespace).reverse
    = (((s.data.dropWhile Char.isWhitespace).reverse.dropWhile
        Char.isWhitespace).reverse).map Char.toLower
  rw [dropWhile_ws_map_toLower, ← List.map_reverse, dropWhile_ws_map_toLower,
    ← List.map_reverse]

lemma pyStrip_pyUpper_comm (s : String) :
    pyStrip (pyUpper s) = pyUpper (pyStrip s) := by
  unfold pyStrip pyUpper
  refine congrArg String.mk ?_
  show (((s.data.map Char.toUpper).dropWhile
      Char.isWhitespace).reverse.dropWhile Char.isWhitespace).reverse
    = (((s.data.dropWhile Char.isWhitespace).reverse.dropWhile
        Char.isWhitespace).reverse).map Char.toUpper
  rw [dropWhile_ws_map_toUpper, ← List.map_reverse, dropWhile_ws_map_toUpper,
    ← List.map_reverse]

lemma pyUpper_pyLower (s : String) : pyUpper (pyLower s) = pyUpper s := by
  unfold pyUpper pyLower
  refine congrArg String.mk ?_
  show (s.data.map Char.toLower).map Char.toUpper = s.data.map Char.toUpper
  rw [List.map_map]
  congr 1
  funext c
  exact toUpper_toLower c

lemma pyUpper_pyUpper (s : String) : pyUpper (pyUpper s) = pyUpper s := by
  unfold pyUpper
  refine congrArg String.mk ?_
  show (s.data.map Char.toUpper).map Char.toUpper = s.data.map Char.toUpper
  rw [List.map_map]
  congr 1
  funext c
  exact toUpper_toUpper c

/-- C8: key matching is invariant under leading/trailing whitespace and
letter case of the key strings, and is exact after normalisation: padding a
key with whitespace or changing its case leaves the normalised key (and
hence the set of base-map records it matches) unchanged, and a record
matches a key only when its stored normalised key equals it exactly. -/
theorem C8_key_matching_normalisation :
    (∀ s pre post : String,
      (∀ c ∈ pre.data, c.isWhitespace = true) →
      (∀ c ∈ post.data, c.isWhitespace = true) →
      normKey (.str (pre ++ s ++ post)) = normKey (.str s)) ∧
    (∀ s : String, normKey (.str (pyLower s)) = normKey (.str s)) ∧
    (∀ s : String, normKey (.str (pyUpper s)) = normKey (.str s)) ∧
    (∀ (bm : List BaseEntry) (ck lk : String) (e : BaseEntry),
      e ∈ matchesFor bm ck lk → e ∈ bm ∧ e.ckey = ck ∧ e.lkey = lk) ∧
    (∀ (bm : List BaseEntry) (c1 l1 c2 l2 : Cell),
      normKey c1 = normKey c2 → normKey l1 = normKey l2 →
      matchesFor bm (normKey c1) (normKey l1)
        = matchesFor bm (normKey c2) (normKey l2)) := by
  refine ⟨?_, ?_, ?_, ?_, ?_⟩
  · intro s pre post hpre hpost
    unfold normKey cellToStr
    rw [pyStrip_pad s pre post hpre hpost]
  · intro s
    unfold normKey cellToStr
    rw [pyStrip_pyLower_comm, pyUpper_pyLower]
  · intro s
    unfold normKey cellToStr
    rw [pyStrip_pyUpper_comm, pyUpper_pyUpper]
  · intro bm ck lk e he
    obtain ⟨hmem, hcond⟩ := List.mem_filter.mp he
    simp only [Bool.and_eq_true, decide_eq_true_eq] at hcond
    exact ⟨hmem, hcond.1, hcond.2⟩
  · intro bm c1 l1 c2 l2 hc hl
    rw [hc, hl]

/-- Witness for C8: " fedex " and "FEDEX" normalise to the same key, by
stripping the padding and upper-casing the lower-case spelling. -/
theorem C8_key_matching_normalisation_witness :
    normKey (.str " fedex ") = normKey (.str "FEDEX") := by
  have h1 := C8_key_matching_normalisation.1 "fedex" " " " "
    (by decide) (by decide)
  have h2 := C8_key_matching_normalisation.2.1 "FEDEX"
  have hs : (" " : String) ++ "fedex" ++ " " = " fedex " := by decide
  have hl : pyLower "FEDEX" = "fedex" := by decide
  rw [← hs, h1, ← hl, h2]

/-- Witness for the amended C2: on `exC2df` the base map is duplicate-free
as a list of records and contains the record of the first eligible row. -/
theorem C2_base_map_dedup_full_records_witness :
    (base_map exC2df).Nodup ∧
    (⟨"A", "L", some 1, some 2, some 3⟩ : BaseEntry) ∈ base_map exC2df := by
  have h := C2_base_map_dedup_full_records exC2df
  exact ⟨h.1, (h.2 ⟨"A", "L", some 1, some 2, some 3⟩).mpr (by decide)⟩
